import Mathlib

/-!
Verification development for the rollout / episode-compilation / dataset-merge
pipeline in `src/utils.py`.

The Python code is shallowly embedded as executable Lean definitions:
 * Hugging Face dataset rows carrying the `episode_index` and `index` columns
   become `Row` records in a `List` (only the columns touched by
   `add_episodes_inplace` are kept; `frame_index` and payload columns are
   never read or written by that function).
 * `episode_data_index` (two 1-D torch tensors under keys "from"/"to")
   becomes `EpisodeDataIndex` with two `List Int` fields.
 * The three caller-owned structures mutated in place by
   `add_episodes_inplace` (the online dataset, the `ConcatDataset` length
   bookkeeping and the `WeightedRandomSampler`) become one `MergerState`
   record threaded through the function.
 * Python `assert` / `IndexError` / `ZeroDivisionError` are modelled by
   returning the state reached so far together with `some errorMessage`
   (exceptions leave earlier in-place mutations visible to the caller, so the
   embedding returns the partially mutated state, not just an error).
 * floats are modelled as exact rationals (`Rat`), matching the spec's
   "exact rational arithmetic" reading of the weight equation.
-/

/-- One row of the incoming/online Hugging Face dataset, restricted to the two
columns `add_episodes_inplace` reads and rewrites. -/
structure Row where
  episode_index : Int
  index : Int
deriving Repr, DecidableEq

/-- The `episode_data_index` dictionary: tensors under keys "from" and "to"
(`fromCol`/`toCol` stand for the Python keys "from"/"to", both Lean keywords). -/
structure EpisodeDataIndex where
  fromCol : List Int
  toCol : List Int
deriving Repr, DecidableEq

/-- The three caller-owned structures mutated in place by
`add_episodes_inplace`: the online dataset (its `hf_dataset` rows and its
`episode_data_index`), the `ConcatDataset` over `[offline, online]` (its fixed
offline length and its recomputed `cumulative_sizes`), and the
`WeightedRandomSampler` (its `weights` and `num_samples`). -/
structure MergerState where
  onlineHf : List Row
  onlineEdi : EpisodeDataIndex
  offlineLen : Nat
  cumulativeSizes : List Nat
  samplerWeights : List Rat
  samplerNumSamples : Nat
deriving Repr, DecidableEq

/-- Python/torch 1-D integer-tensor indexing, including negative indices
counted from the end; `none` models an `IndexError`. -/
def pyGet (l : List Int) (i : Int) : Option Int :=
  if 0 ≤ i then l.get? i.toNat
  else if (-i) ≤ (l.length : Int) then l.get? (l.length - (-i).toNat)
  else none

/-- `calculate_online_sample_weight` from `src/utils.py` (lines 710-727):
asserts `0.0 <= pc_on <= 1.0`, then returns
`-(n_off * pc_on) / (n_on * (pc_on - 1))`.  A zero denominator is Python's
`ZeroDivisionError`; both failure modes are modelled as `.error`. -/
def calculate_online_sample_weight (n_off n_on : Nat) (pc_on : Rat) :
    Except String Rat :=
  if ¬ (0 ≤ pc_on ∧ pc_on ≤ 1) then
    .error "AssertionError: 0.0 <= pc_on <= 1.0"
  else if (n_on : Rat) * (pc_on - 1) = 0 then
    .error "ZeroDivisionError: float division by zero"
  else
    .ok (-((n_off : Rat) * pc_on) / ((n_on : Rat) * (pc_on - 1)))

/-- Lines 105-120 of `src/utils.py`: the tail of `add_episodes_inplace` that
runs after the (possibly) appended online dataset `st1` is in place —
recompute `cumulative_sizes` for `[offline, online]`, recompute the online
weight via `calculate_online_sample_weight` (which can raise), and rebuild
the sampler weights and sample count. -/
def finishMerge (st1 : MergerState) (edi1 : EpisodeDataIndex)
    (pc_online_samples : Rat) : MergerState × EpisodeDataIndex × Option String :=
  let st2 := { st1 with
    cumulativeSizes := [st1.offlineLen, st1.offlineLen + st1.onlineHf.length] }
  let len_online := st2.onlineHf.length
  let len_offline := (st2.offlineLen + len_online) - len_online
  match calculate_online_sample_weight len_offline len_online pc_online_samples with
  | .error e => (st2, edi1, some e)
  | .ok weight_online =>
    let st3 := { st2 with
      samplerWeights :=
        List.replicate len_offline (1 : Rat) ++
          List.replicate len_online weight_online,
      samplerNumSamples := st2.offlineLen + len_online }
    (st3, edi1, none)

/-- `add_episodes_inplace` from `src/utils.py` (lines 30-120).

Returns the final `MergerState`, the (possibly shifted-in-place) incoming
`episode_data_index`, and `some msg` when the Python code would raise.  The
embedding mirrors the source's statement order exactly:
 1. read first/last `episode_index` and `index` of the incoming batch
    (an empty batch raises `IndexError` at the very first `[0]` access);
 2. the four `assert`s of lines 68-71, in order, each raising before any
    mutation;
 3. empty online dataset: adopt the batch and its index table verbatim;
    otherwise shift the incoming `episode_index` / `index` columns by
    `last_episode_idx + 1` / `last_index + 1` (both read from the *incoming*
    batch, lines 62-66 and 79-80), shift the incoming `episode_data_index`
    in place, and append the shifted rows (the online dataset's own
    `episode_data_index` is not touched in this branch, exactly as in the
    source);
 4. recompute `cumulative_sizes` for `[offline, online]`;
 5. recompute the weights via `calculate_online_sample_weight` (which can
    raise *after* the mutations of steps 3-4) and finally the weights array
    and `num_samples`. -/
def add_episodes_inplace (st : MergerState) (hf_dataset : List Row)
    (episode_data_index : EpisodeDataIndex) (pc_online_samples : Rat) :
    MergerState × EpisodeDataIndex × Option String :=
  match hf_dataset.head?, hf_dataset.getLast? with
  | some firstRow, some lastRow =>
    let first_episode_idx := firstRow.episode_index
    let last_episode_idx := lastRow.episode_index
    let first_index := firstRow.index
    let last_index := lastRow.index
    if first_episode_idx ≠ 0 then
      (st, episode_data_index, some "AssertionError: first_episode_idx is not 0")
    else if first_index ≠ 0 then
      (st, episode_data_index, some "AssertionError: first_index is not 0")
    else
      match pyGet episode_data_index.fromCol first_episode_idx with
      | none => (st, episode_data_index, some "IndexError: episode_data_index[from]")
      | some fromVal =>
        if first_index ≠ fromVal then
          (st, episode_data_index, some "AssertionError: first_index != episode_data_index[from][first_episode_idx]")
        else
          match pyGet episode_data_index.toCol last_episode_idx with
          | none => (st, episode_data_index, some "IndexError: episode_data_index[to]")
          | some toVal =>
            if last_index ≠ toVal - 1 then
              (st, episode_data_index, some "AssertionError: last_index != episode_data_index[to][last_episode_idx] - 1")
            else
              let branch :=
                if st.onlineHf.length = 0 then
                  ({ st with onlineHf := hf_dataset,
                             onlineEdi := episode_data_index },
                   episode_data_index)
                else
                  let start_episode_idx := last_episode_idx + 1
                  let start_index := last_index + 1
                  let shifted := hf_dataset.map (fun r =>
                    { r with episode_index := r.episode_index + start_episode_idx,
                             index := r.index + start_index })
                  let edi' : EpisodeDataIndex :=
                    { fromCol := episode_data_index.fromCol.map (· + start_index),
                      toCol := episode_data_index.toCol.map (· + start_index) }
                  ({ st with onlineHf := st.onlineHf ++ shifted }, edi')
              finishMerge branch.1 branch.2 pc_online_samples
  | _, _ => (st, episode_data_index, some "IndexError: list index out of range")

/-- An initially empty online dataset alongside an offline dataset of length
`offLen`, as the training loop sets it up before the first merge. -/
def initialMergerState (offLen : Nat) : MergerState :=
  { onlineHf := []
    onlineEdi := { fromCol := [], toCol := [] }
    offlineLen := offLen
    cumulativeSizes := [offLen, offLen]
    samplerWeights := List.replicate offLen (1 : Rat)
    samplerNumSamples := offLen }

/-!  Episode boundary resolution (`eval_policy`, `src/utils.py` lines 331-336).

`done_indices = torch.argmax(rollout_data["done"].to(int), axis=1)` and
`mask = (torch.arange(n_steps) <= repeat(done_indices + 1, "b -> b s")).int()`.
The cumulative `done` tensor is a rectangular `List (List Bool)`;
`torch.argmax` returns the first index attaining the maximum (the property the
source comment on line 332 relies on), and the 0/1 `int` mask is modelled as a
`Bool` matrix (entry `= 1` iff `true`). -/

/-- `torch.argmax` on a 1-D integer tensor: index of the first occurrence of
the maximum (0 on an empty tensor, which torch would reject; claims only use
nonempty rows). -/
def torchArgmax (l : List Int) : Nat :=
  match l.max? with
  | none => 0
  | some m => l.indexOf m

/-- `.to(int)` on a boolean tensor entry. -/
def boolToInt (b : Bool) : Int := if b then 1 else 0

/-- Line 333: per-row first-done index of the cumulative done tensor. -/
def doneIndices (done : List (List Bool)) : List Nat :=
  done.map (fun row => torchArgmax (row.map boolToInt))

/-- Line 336: the validity mask; `n_steps = rollout_data["done"].shape[1]`
(the length of the first row) and entry `(i, s)` is `s ≤ done_index[i] + 1`. -/
def validityMask (done : List (List Bool)) : List (List Bool) :=
  let n_steps := (done.head?.getD []).length
  (doneIndices done).map (fun d =>
    (List.range n_steps).map (fun s => decide (s ≤ d + 1)))

/-! Helper lemmas about `torchArgmax` and `List.getD` over `map`. -/

theorem foldl_max_zeros (l : List Int) (h : ∀ x ∈ l, x = 0) :
    l.foldl max 0 = 0 := by
  induction l with
  | nil => rfl
  | cons a t ih =>
    have ha : a = 0 := h a (List.mem_cons_self a t)
    have ht : ∀ x ∈ t, x = 0 := fun x hx => h x (List.mem_cons_of_mem a hx)
    simp [ha, ih ht]

theorem torchArgmax_zeros (l : List Int) (h : ∀ x ∈ l, x = 0)
    (hne : l ≠ []) : torchArgmax l = 0 := by
  cases l with
  | nil => exact absurd rfl hne
  | cons a t =>
    have ha : a = 0 := h a (List.mem_cons_self a t)
    have ht : ∀ x ∈ t, x = 0 := fun x hx => h x (List.mem_cons_of_mem a hx)
    simp [torchArgmax, List.max?, ha, foldl_max_zeros t ht, List.indexOf_cons_self]

theorem getD_map_of_lt {α β : Type} (f : α → β) (l : List α) (i : Nat)
    (d : α) (d' : β) (hi : i < l.length) :
    (l.map f).getD i d' = f (l.getD i d) := by
  simp [List.getD, List.getElem?_map, List.getElem?_eq_getElem hi]

/-! Concrete merge scenarios used to check the merger against the spec. -/

/-- State reached by merging, into an initially empty online dataset, a
zero-based batch of two one-frame episodes (episode column `[0, 1]`, index
column `[0, 1]`, ranges `[0,1)` and `[1,2)`).  The merge succeeds. -/
def mergerStateTwoEp : MergerState :=
  (add_episodes_inplace (initialMergerState 0)
      [⟨0, 0⟩, ⟨1, 1⟩] ⟨[0, 1], [1, 2]⟩ (1/2)).1

/-- C1: the claim says a merge into a non-empty online dataset shifts the
incoming `episode_index`/`index` columns by one past the *last existing*
values.  The code (lines 62-66, 79-80) instead shifts by one past the
*incoming batch's own* last values.  With online content `{(ep 0, idx 0),
(ep 1, idx 1)}` and an incoming one-frame zero-based batch, the code appends
the row `(ep 1, idx 1)` — colliding with existing data — while the claimed
shift would append `(ep 2, idx 2)`. -/
theorem add_episodes_shift_uses_incoming_indices :
    mergerStateTwoEp.onlineHf = [⟨0, 0⟩, ⟨1, 1⟩]
    ∧ (add_episodes_inplace mergerStateTwoEp [⟨0, 0⟩] ⟨[0], [1]⟩ (1/2)).2.2 = none
    ∧ (add_episodes_inplace mergerStateTwoEp [⟨0, 0⟩] ⟨[0], [1]⟩ (1/2)).1.onlineHf
        = [⟨0, 0⟩, ⟨1, 1⟩, ⟨1, 1⟩]
    ∧ (add_episodes_inplace mergerStateTwoEp [⟨0, 0⟩] ⟨[0], [1]⟩ (1/2)).1.onlineHf
        ≠ [⟨0, 0⟩, ⟨1, 1⟩, ⟨2, 2⟩] := by
  with_unfolding_all decide

/-- Final state of the two-merge sequence refuting the contiguity invariant:
first a one-frame episode batch, then a two-frame single-episode batch, both
zero-based and with consistent index tables, both merges error-free. -/
def mergeSeqFinal : MergerState :=
  (add_episodes_inplace
      (add_episodes_inplace (initialMergerState 0) [⟨0, 0⟩] ⟨[0], [1]⟩ (1/2)).1
      [⟨0, 0⟩, ⟨0, 1⟩] ⟨[0], [2]⟩ (1/2)).1

/-- C2: after the two error-free merges of `mergeSeqFinal` the online
dataset's global index column is `[0, 2, 3]` — not the gap-free `[0, 1, 2]`
the invariant requires — and its `episode_data_index` still holds only the
first batch's ranges (`to = [1]`), so the `(from, to)` ranges do not
reconstruct `[0, 3)` for the 3 stored frames. -/
theorem merge_sequence_breaks_contiguity :
    (add_episodes_inplace (initialMergerState 0) [⟨0, 0⟩] ⟨[0], [1]⟩ (1/2)).2.2 = none
    ∧ (add_episodes_inplace
        (add_episodes_inplace (initialMergerState 0) [⟨0, 0⟩] ⟨[0], [1]⟩ (1/2)).1
        [⟨0, 0⟩, ⟨0, 1⟩] ⟨[0], [2]⟩ (1/2)).2.2 = none
    ∧ mergeSeqFinal.onlineHf.map Row.index = [0, 2, 3]
    ∧ mergeSeqFinal.onlineHf.map Row.index ≠ [0, 1, 2]
    ∧ mergeSeqFinal.onlineHf.length = 3
    ∧ mergeSeqFinal.onlineEdi.toCol = [1]
    ∧ mergeSeqFinal.onlineEdi.toCol.getLast? ≠ some 3 := by
  with_unfolding_all decide

/-- C8 counterexample: merging an empty batch is not a successful no-op — the
very first row access (`hf_dataset.select_columns("episode_index")[0]`,
line 59) raises `IndexError`, so `add_episodes_inplace` reports an error
instead of returning normally. -/
theorem merge_empty_batch_raises :
    (add_episodes_inplace (initialMergerState 3) [] ⟨[], []⟩ (1/2)).2.2 ≠ none := by
  with_unfolding_all decide

/-- C8 amended: merging an empty batch raises `IndexError` at the first row
access, before any mutation; the online dataset, the concat-dataset length
bookkeeping, the sampler weights and the sample count are all returned
unchanged. -/
theorem merge_empty_batch_error_unchanged (st : MergerState)
    (edi : EpisodeDataIndex) (pc : Rat) :
    add_episodes_inplace st [] edi pc
      = (st, edi, some "IndexError: list index out of range") := rfl

/-- C9 counterexample: with a perfectly valid zero-based one-frame batch
(all four validation conditions hold, as shown by the error-free run at
`pc = 1/2`) and `pc_online_samples = 1`, `add_episodes_inplace` still raises
(`ZeroDivisionError` inside `calculate_online_sample_weight`, line 727), and
it does so *after* mutating the online dataset — the returned state has the
batch already adopted.  This refutes both the "if and only if" and the
"raises only before mutating" parts of the claim. -/
theorem merge_raises_after_mutation_at_pc_one :
    (add_episodes_inplace (initialMergerState 0) [⟨0, 0⟩] ⟨[0], [1]⟩ (1/2)).2.2 = none
    ∧ (add_episodes_inplace (initialMergerState 0) [⟨0, 0⟩] ⟨[0], [1]⟩ 1).2.2
        = some "ZeroDivisionError: float division by zero"
    ∧ (add_episodes_inplace (initialMergerState 0) [⟨0, 0⟩] ⟨[0], [1]⟩ 1).1.onlineHf
        = [⟨0, 0⟩]
    ∧ (add_episodes_inplace (initialMergerState 0) [⟨0, 0⟩] ⟨[0], [1]⟩ 1).1
        ≠ initialMergerState 0 := by
  with_unfolding_all decide

/-- C3 counterexample: at `n_off = 0`, `n_on = 1`, `pc_on = 1/2` the function
returns `w = 0`, and the claimed identity `n_on*w / (n_off + n_on*w) = pc_on`
fails in exact rational arithmetic — the fraction is `0 / 0`. -/
theorem sample_weight_ratio_fails_at_zero_offline :
    ¬ (∀ w : Rat, calculate_online_sample_weight 0 1 (1/2) = .ok w →
        (1 : Rat) * w / ((0 : Rat) + (1 : Rat) * w) = 1/2) := by
  intro h
  have h0 := h 0 (by with_unfolding_all rfl)
  norm_num at h0

/-- C3 amended: for every `n_off ≥ 1`, `n_on > 0` and `pc_on ∈ [0, 1)`,
`calculate_online_sample_weight` succeeds and its value `w` satisfies
`n_on*w / (n_off + n_on*w) = pc_on` exactly; moreover `pc_on = 0` yields
`w = 0` for *every* offline count `m ≥ 0` (the second conjunct quantifies
over all `m`, so it covers `m = 0` too), and `(100, 50, 1/2)` yields
`w = 2`.  (The original claim's `n_off = 0` case with `pc_on > 0` makes the
fraction `0/0`.) -/
theorem calculate_online_sample_weight_ratio (n_off n_on : Nat) (pc_on : Rat)
    (h1 : 1 ≤ n_off) (h2 : 0 < n_on) (h3 : 0 ≤ pc_on) (h4 : pc_on < 1) :
    (∃ w : Rat, calculate_online_sample_weight n_off n_on pc_on = .ok w ∧
        (n_on : Rat) * w / ((n_off : Rat) + (n_on : Rat) * w) = pc_on)
    ∧ (∀ m : Nat, calculate_online_sample_weight m n_on 0 = .ok 0)
    ∧ calculate_online_sample_weight 100 50 (1/2) = .ok 2 := by
  have hB : (n_on : Rat) ≠ 0 := by exact_mod_cast h2.ne'
  have hA : (1 : Rat) ≤ (n_off : Rat) := by exact_mod_cast h1
  have hA0 : (n_off : Rat) ≠ 0 := by positivity
  have hpc1 : pc_on - 1 ≠ 0 := sub_ne_zero.mpr (ne_of_lt h4)
  have hden : (n_on : Rat) * (pc_on - 1) ≠ 0 := mul_ne_zero hB hpc1
  have h1pc : (0 : Rat) < 1 - pc_on := by linarith
  have hcond : ¬ ¬ (0 ≤ pc_on ∧ pc_on ≤ 1) := by
    push_neg
    exact ⟨h3, le_of_lt h4⟩
  refine ⟨⟨-((n_off : Rat) * pc_on) / ((n_on : Rat) * (pc_on - 1)), ?_, ?_⟩, ?_, ?_⟩
  · rw [calculate_online_sample_weight, if_neg hcond, if_neg hden]
  · have hd : (n_off : Rat)
          + (n_on : Rat) * (-((n_off : Rat) * pc_on) / ((n_on : Rat) * (pc_on - 1)))
        = (n_off : Rat) / (1 - pc_on) := by
      field_simp
      ring
    have hd0 : (n_off : Rat)
          + (n_on : Rat) * (-((n_off : Rat) * pc_on) / ((n_on : Rat) * (pc_on - 1)))
        ≠ 0 := by
      rw [hd]
      exact div_ne_zero hA0 (ne_of_gt h1pc)
    rw [div_eq_iff hd0]
    field_simp
    ring
  · intro m
    have hcond0 : ¬ ¬ ((0 : Rat) ≤ 0 ∧ (0 : Rat) ≤ 1) := by norm_num
    have hden0 : (n_on : Rat) * ((0 : Rat) - 1) ≠ 0 := by
      simpa using hB
    rw [calculate_online_sample_weight, if_neg hcond0, if_neg hden0]
    norm_num
  · with_unfolding_all rfl

/-- Witness for `calculate_online_sample_weight_ratio` at
`n_off = 100`, `n_on = 50`, `pc_on = 1/2`. -/
theorem calculate_online_sample_weight_ratio_witness :
    ((1 ≤ 100 ∧ 0 < 50) ∧ (0 : Rat) ≤ 1/2 ∧ (1/2 : Rat) < 1)
    ∧ ((∃ w : Rat, calculate_online_sample_weight 100 50 (1/2) = .ok w ∧
          ((50 : Nat) : Rat) * w / (((100 : Nat) : Rat) + ((50 : Nat) : Rat) * w) = 1/2)
        ∧ (∀ m : Nat, calculate_online_sample_weight m 50 0 = .ok 0)
        ∧ calculate_online_sample_weight 100 50 (1/2) = .ok 2) :=
  ⟨⟨⟨by norm_num, by norm_num⟩, by norm_num, by norm_num⟩,
    calculate_online_sample_weight_ratio 100 50 (1/2)
      (by norm_num) (by norm_num) (by norm_num) (by norm_num)⟩

/-- C5 counterexample: on a cumulative done tensor whose single row is false
at every one of its 3 steps, `torch.argmax` returns the first index of the
all-zero row, so the resolved `done_index` is 0 — not 2, the index of the
last step as the claim states. -/
theorem done_index_all_false_not_last_step :
    doneIndices [[false, false, false]] = [0]
    ∧ doneIndices [[false, false, false]] ≠ [2] := by
  decide

/-- C5 amended: for every cumulative done tensor containing a (nonempty)
batch row that is false at every step, boundary resolution computes that
row's `done_index` as 0, the index of the *first* step (the degenerate
argmax-of-all-false behaviour). -/
theorem done_index_all_false_is_zero (done : List (List Bool)) (i : Nat)
    (hi : i < done.length)
    (hne : done.getD i [] ≠ [])
    (hfalse : ∀ b ∈ done.getD i [], b = false) :
    (doneIndices done).getD i 0 = 0 := by
  simp only [doneIndices]
  have hz : torchArgmax ((done.getD i []).map boolToInt) = 0 := by
    apply torchArgmax_zeros
    · intro x hx
      rcases List.mem_map.mp hx with ⟨b, hb, rfl⟩
      rw [hfalse b hb]
      rfl
    · intro hmap
      apply hne
      simpa using hmap
  rw [getD_map_of_lt (fun row => torchArgmax (row.map boolToInt)) done i [] 0 hi]
  exact hz

/-- Witness for `done_index_all_false_is_zero` on the concrete all-false
2-step single-row tensor. -/
theorem done_index_all_false_is_zero_witness :
    (0 < ([[false, false]] : List (List Bool)).length
      ∧ ([[false, false]] : List (List Bool)).getD 0 [] ≠ []
      ∧ ∀ b ∈ ([[false, false]] : List (List Bool)).getD 0 [], b = false)
    ∧ (doneIndices [[false, false]]).getD 0 0 = 0 :=
  ⟨⟨by decide, by decide, by decide⟩,
    done_index_all_false_is_zero [[false, false]] 0 (by decide) (by decide) (by decide)⟩

theorem countP_range_le (k : Nat) (n : Nat) :
    (List.range n).countP (fun s => decide (s ≤ k)) = min (k + 1) n := by
  induction n with
  | zero => simp
  | succ n ih =>
    rw [List.range_succ, List.countP_append, ih]
    by_cases h : n ≤ k
    · simp [List.countP_cons, h]
      omega
    · simp [List.countP_cons, h]
      omega

theorem count_true_map_decide (p : Nat → Prop) [DecidablePred p]
    (l : List Nat) :
    (l.map (fun s => decide (p s))).count true
      = l.countP (fun s => decide (p s)) := by
  induction l with
  | nil => rfl
  | cons a t ih =>
    by_cases h : p a <;>
      simp [List.count_cons, List.countP_cons, ih, h]

/-- C4: for every rectangular cumulative done tensor of shape
`(batch, nSteps)` whose rows each contain at least one `true`, the mask of
line 336 has the same shape as `done`, entry `(i, s)` is true iff
`s ≤ done_index[i] + 1`, and row `i` has exactly
`min (done_index[i] + 2) nSteps` true entries. -/
theorem validity_mask_shape_iff_count (done : List (List Bool)) (nSteps : Nat)
    (hne : done ≠ [])
    (hrect : ∀ row ∈ done, row.length = nSteps)
    (htrue : ∀ row ∈ done, true ∈ row) :
    ((validityMask done).length = done.length
      ∧ ∀ m ∈ validityMask done, m.length = nSteps)
    ∧ (∀ i s, i < done.length → s < nSteps →
        ((((validityMask done).getD i []).getD s false) = true
          ↔ s ≤ (doneIndices done).getD i 0 + 1))
    ∧ (∀ i, i < done.length →
        ((validityMask done).getD i []).count true
          = min ((doneIndices done).getD i 0 + 2) nSteps) := by
  have hlen0 : (done.head?.getD []).length = nSteps := by
    cases done with
    | nil => exact absurd rfl hne
    | cons r t => exact hrect r (List.mem_cons_self r t)
  have hmask : validityMask done
      = (doneIndices done).map (fun d =>
          (List.range nSteps).map (fun s => decide (s ≤ d + 1))) := by
    rw [validityMask, hlen0]
  have hlenDI : (doneIndices done).length = done.length := by
    simp [doneIndices]
  have hrow : ∀ i, i < done.length →
      (validityMask done).getD i []
        = (List.range nSteps).map
            (fun s => decide (s ≤ (doneIndices done).getD i 0 + 1)) := by
    intro i hi
    rw [hmask,
      getD_map_of_lt (fun d => (List.range nSteps).map (fun s => decide (s ≤ d + 1)))
        (doneIndices done) i 0 [] (hlenDI ▸ hi)]
  refine ⟨⟨?_, ?_⟩, ?_, ?_⟩
  · rw [hmask]
    simpa using hlenDI
  · intro m hm
    rw [hmask] at hm
    rcases List.mem_map.mp hm with ⟨d, _, rfl⟩
    simp
  · intro i s hi hs
    rw [hrow i hi,
      getD_map_of_lt (fun s => decide (s ≤ (doneIndices done).getD i 0 + 1))
        (List.range nSteps) s 0 false (by simpa using hs)]
    have : (List.range nSteps).getD s 0 = s := by
      simp [List.getD, List.getElem?_range hs]
    rw [this]
    exact decide_eq_true_iff
  · intro i hi
    rw [hrow i hi, count_true_map_decide (fun s => s ≤ (doneIndices done).getD i 0 + 1),
      countP_range_le]

/-- Witness for `validity_mask_shape_iff_count` on the concrete tensor
`[[false, true, true], [true, true, true]]` (shape 2 × 3). -/
theorem validity_mask_shape_iff_count_witness :
    (([[false, true, true], [true, true, true]] : List (List Bool)) ≠ []
      ∧ (∀ row ∈ ([[false, true, true], [true, true, true]] : List (List Bool)), row.length = 3)
      ∧ (∀ row ∈ ([[false, true, true], [true, true, true]] : List (List Bool)), true ∈ row))
    ∧ (((validityMask [[false, true, true], [true, true, true]]).length
          = ([[false, true, true], [true, true, true]] : List (List Bool)).length
        ∧ ∀ m ∈ validityMask [[false, true, true], [true, true, true]], m.length = 3)
      ∧ (∀ i s, i < ([[false, true, true], [true, true, true]] : List (List Bool)).length → s < 3 →
          ((((validityMask [[false, true, true], [true, true, true]]).getD i []).getD s false) = true
            ↔ s ≤ (doneIndices [[false, true, true], [true, true, true]]).getD i 0 + 1))
      ∧ (∀ i, i < ([[false, true, true], [true, true, true]] : List (List Bool)).length →
          ((validityMask [[false, true, true], [true, true, true]]).getD i []).count true
            = min ((doneIndices [[false, true, true], [true, true, true]]).getD i 0 + 2) 3)) :=
  ⟨⟨by decide, by decide, by decide⟩,
    validity_mask_shape_iff_count [[false, true, true], [true, true, true]] 3
      (by decide) (by decide) (by decide)⟩


theorem calculate_online_sample_weight_isOk (n_off n_on : Nat) (pc : Rat)
    (h2 : 0 < n_on) (h3 : 0 ≤ pc) (h4 : pc < 1) :
    calculate_online_sample_weight n_off n_on pc
      = .ok (-((n_off : Rat) * pc) / ((n_on : Rat) * (pc - 1))) := by
  have hB : (n_on : Rat) ≠ 0 := by exact_mod_cast h2.ne'
  have hden : (n_on : Rat) * (pc - 1) ≠ 0 :=
    mul_ne_zero hB (sub_ne_zero.mpr (ne_of_lt h4))
  have hcond : ¬ ¬ (0 ≤ pc ∧ pc ≤ 1) := by
    push_neg
    exact ⟨h3, le_of_lt h4⟩
  rw [calculate_online_sample_weight, if_neg hcond, if_neg hden]

theorem finishMerge_none (st1 : MergerState) (edi1 : EpisodeDataIndex)
    (pc : Rat) (h : 0 < st1.onlineHf.length) (hpc0 : 0 ≤ pc) (hpc1 : pc < 1) :
    (finishMerge st1 edi1 pc).2.2 = none
    ∧ (finishMerge st1 edi1 pc).2.1 = edi1 := by
  have hok1 := calculate_online_sample_weight_isOk
    ((st1.offlineLen + st1.onlineHf.length) - st1.onlineHf.length)
    st1.onlineHf.length pc h hpc0 hpc1
  have hok2 := calculate_online_sample_weight_isOk
    st1.offlineLen st1.onlineHf.length pc h hpc0 hpc1
  simp [finishMerge, hok1, hok2]

/-- C9 amended: for a nonempty incoming batch whose index table has one
`from`/`to` entry per episode (so `to`'s length is `last_episode_idx + 1`)
and a target fraction `0 ≤ pc < 1`, `add_episodes_inplace` raises if and
only if one of the four validation conditions of lines 68-71 is violated,
and when it raises the three caller-owned structures (and the incoming
index table) are returned unchanged.  (For `pc = 1` the function raises
*after* mutating — see `merge_raises_after_mutation_at_pc_one`.) -/
theorem add_episodes_validation_iff (st : MergerState) (hf : List Row)
    (edi : EpisodeDataIndex) (pc : Rat) (first last : Row)
    (hfirst : hf.head? = some first) (hlast : hf.getLast? = some last)
    (hlen : edi.fromCol.length = edi.toCol.length)
    (hpos : 0 < edi.toCol.length)
    (hcnt : (edi.toCol.length : Int) = last.episode_index + 1)
    (hpc0 : 0 ≤ pc) (hpc1 : pc < 1) :
    ((add_episodes_inplace st hf edi pc).2.2 ≠ none
      ↔ (first.episode_index ≠ 0 ∨ first.index ≠ 0
          ∨ edi.fromCol.head?.getD 0 ≠ first.index
          ∨ edi.toCol.getLast?.getD 0 ≠ last.index + 1))
    ∧ ((add_episodes_inplace st hf edi pc).2.2 ≠ none →
        (add_episodes_inplace st hf edi pc).1 = st
        ∧ (add_episodes_inplace st hf edi pc).2.1 = edi) := by
  obtain ⟨c, cs, hfrom⟩ : ∃ c cs, edi.fromCol = c :: cs := by
    cases hF : edi.fromCol with
    | nil =>
      rw [hF] at hlen
      simp at hlen
      omega
    | cons c cs => exact ⟨c, cs, rfl⟩
  have hheadc : edi.fromCol.head?.getD 0 = c := by rw [hfrom]; rfl
  have hpy1 : pyGet edi.fromCol 0 = some c := by
    rw [hfrom]
    simp [pyGet]
  have hLnonneg : (0 : Int) ≤ last.episode_index := by omega
  have htoNat : last.episode_index.toNat = edi.toCol.length - 1 := by omega
  have hTne : edi.toCol ≠ [] := by
    intro h
    rw [h] at hpos
    simp at hpos
  obtain ⟨tl, htl⟩ : ∃ tl, edi.toCol.getLast? = some tl :=
    Option.isSome_iff_exists.mp (List.getLast?_isSome.mpr hTne)
  have hlastc : edi.toCol.getLast?.getD 0 = tl := by rw [htl]; rfl
  have hpy2 : pyGet edi.toCol last.episode_index = some tl := by
    rw [pyGet, if_pos hLnonneg, htoNat, List.get?_eq_getElem?,
      ← List.getLast?_eq_getElem?]
    exact htl
  have hfne : hf ≠ [] := by
    intro h
    rw [h] at hfirst
    exact Option.noConfusion hfirst
  by_cases h1 : first.episode_index = 0
  · by_cases h2 : first.index = 0
    · by_cases h3 : c = first.index
      · have hc : c = 0 := h3.trans h2
        by_cases h4 : tl = last.index + 1
        · -- all four validation conditions hold: the merge succeeds
          have hlt : last.index = tl - 1 := by omega
          have herr : (add_episodes_inplace st hf edi pc).2.2 = none := by
            have hhfpos : 0 < hf.length := List.length_pos.mpr hfne
            simp only [add_episodes_inplace, hfirst, hlast, h1, h2, hc, hlt,
              hpy1, hpy2]
            by_cases hOn : st.onlineHf = []
            · simp [hOn]
              exact (finishMerge_none _ edi pc (by simpa using hhfpos)
                hpc0 hpc1).1
            · simp [hOn]
              exact (finishMerge_none _ _ pc (by simp; omega) hpc0 hpc1).1
          refine ⟨?_, ?_⟩
          · rw [herr]
            refine iff_of_false (by simp) ?_
            push_neg
            exact ⟨h1, h2, by rw [hheadc]; exact h3, by rw [hlastc]; exact h4⟩
          · intro hcontra
            rw [herr] at hcontra
            exact absurd rfl hcontra
        · -- fourth validation condition violated
          have hne4 : last.index ≠ tl - 1 := by omega
          have hres : add_episodes_inplace st hf edi pc
              = (st, edi, some "AssertionError: last_index != episode_data_index[to][last_episode_idx] - 1") := by
            simp only [add_episodes_inplace, hfirst, hlast, h1, h2, hc, hpy1, hpy2]
            simp [hne4]
          rw [hres]
          exact ⟨iff_of_true (by simp)
              (Or.inr (Or.inr (Or.inr (by rw [hlastc]; exact h4)))),
            fun _ => ⟨rfl, rfl⟩⟩
      · -- third validation condition violated
        have hne3 : first.index ≠ c := fun h => h3 h.symm
        have hc0 : ¬ ((0 : Int) = c) := fun h => hne3 (h2.trans h)
        have hres : add_episodes_inplace st hf edi pc
            = (st, edi, some "AssertionError: first_index != episode_data_index[from][first_episode_idx]") := by
          simp only [add_episodes_inplace, hfirst, hlast, h1, hpy1]
          simp [h2, hne3, hc0]
        rw [hres]
        exact ⟨iff_of_true (by simp)
            (Or.inr (Or.inr (Or.inl (by rw [hheadc]; exact h3)))),
          fun _ => ⟨rfl, rfl⟩⟩
    · -- second validation condition violated
      have hres : add_episodes_inplace st hf edi pc
          = (st, edi, some "AssertionError: first_index is not 0") := by
        simp only [add_episodes_inplace, hfirst, hlast, h1]
        simp [h2]
      rw [hres]
      exact ⟨iff_of_true (by simp) (Or.inr (Or.inl h2)), fun _ => ⟨rfl, rfl⟩⟩
  · -- first validation condition violated
    have hres : add_episodes_inplace st hf edi pc
        = (st, edi, some "AssertionError: first_episode_idx is not 0") := by
      simp only [add_episodes_inplace, hfirst, hlast]
      simp [h1]
    rw [hres]
    exact ⟨iff_of_true (by simp) (Or.inl h1), fun _ => ⟨rfl, rfl⟩⟩

/-- Witness for `add_episodes_validation_iff` on a valid zero-based one-frame
batch merged into an empty online dataset next to a 2-sample offline dataset
at `pc = 1/2` (no validation condition is violated and no error is raised). -/
theorem add_episodes_validation_iff_witness :
    (([⟨0, 0⟩] : List Row).head? = some ⟨0, 0⟩
      ∧ ([⟨0, 0⟩] : List Row).getLast? = some ⟨0, 0⟩
      ∧ ([0] : List Int).length = ([1] : List Int).length
      ∧ 0 < ([1] : List Int).length
      ∧ ((([1] : List Int).length : Int) = (0 : Int) + 1)
      ∧ (0 : Rat) ≤ 1/2 ∧ (1/2 : Rat) < 1)
    ∧ (((add_episodes_inplace (initialMergerState 2) [⟨0, 0⟩] ⟨[0], [1]⟩ (1/2)).2.2 ≠ none
        ↔ ((⟨0, 0⟩ : Row).episode_index ≠ 0 ∨ (⟨0, 0⟩ : Row).index ≠ 0
            ∨ (⟨[0], [1]⟩ : EpisodeDataIndex).fromCol.head?.getD 0 ≠ (⟨0, 0⟩ : Row).index
            ∨ (⟨[0], [1]⟩ : EpisodeDataIndex).toCol.getLast?.getD 0 ≠ (⟨0, 0⟩ : Row).index + 1))
      ∧ ((add_episodes_inplace (initialMergerState 2) [⟨0, 0⟩] ⟨[0], [1]⟩ (1/2)).2.2 ≠ none →
          (add_episodes_inplace (initialMergerState 2) [⟨0, 0⟩] ⟨[0], [1]⟩ (1/2)).1
            = initialMergerState 2
          ∧ (add_episodes_inplace (initialMergerState 2) [⟨0, 0⟩] ⟨[0], [1]⟩ (1/2)).2.1
            = ⟨[0], [1]⟩)) :=
  ⟨⟨rfl, rfl, rfl, by decide, by decide, by norm_num, by norm_num⟩,
    add_episodes_validation_iff (initialMergerState 2) [⟨0, 0⟩] ⟨[0], [1]⟩ (1/2)
      ⟨0, 0⟩ ⟨0, 0⟩ rfl rfl rfl (by decide) (by decide) (by norm_num) (by norm_num)⟩

/-!  Episode compilation (`_compile_episode_data`, `src/utils.py` lines
456-548).

Modelling choices, all forced by what the claims observe:
 * per-step tensors become nested lists of exact rationals;
 * the observation dictionary is modelled with a single image-typed key
   (as in the callers' `observation.image`); an image tensor keeps its
   `(c, h, w)` shape and a flattened pixel list;
 * the `float32` dtype assert (line 506) is not modellable over `Rat` and is
   omitted; the shape assert (line 503) and the `[0, 1]` range asserts
   (lines 507-508) are kept;
 * `img *= 255` (line 511) multiplies, in place, a slice view of the caller's
   rollout tensor: the embedding therefore returns the (possibly partially)
   mutated rollout alongside the result, mirroring what the caller's tensors
   look like after the Python call;
 * `img.type(torch.uint8)` truncates the validated non-negative scaled pixels,
   i.e. takes their floor;
 * `torch.max`/`torch.min` on an empty tensor raise, modelled as an error. -/

structure ImageTensor where
  c : Nat
  h : Nat
  w : Nat
  pixels : List Rat
deriving Repr, DecidableEq

/-- The rollout dictionary as consumed by `_compile_episode_data`:
`action` is `(batch, steps, action_dim)`, `reward` and `done` are
`(batch, steps)`, and the single image observation key is
`(batch, steps + 1)` frames (one extra terminal observation). -/
structure RolloutData where
  action : List (List (List Rat))
  reward : List (List Rat)
  done : List (List Bool)
  observationImage : List (List ImageTensor)
deriving Repr, DecidableEq

/-- The column-oriented `data_dict` / `episode_data_index` produced by
`_compile_episode_data` (`timestamp = frame_index / fps`, `index` the global
arange, `ediFrom`/`ediTo` the per-episode `(from, to)` ranges). -/
structure CompiledOutput where
  episode_index : List Int
  frame_index : List Nat
  timestamp : List Rat
  next_done : List Bool
  next_reward : List Rat
  action : List (List Rat)
  imagesUint8 : List (List Int)
  indexCol : List Nat
  ediFrom : List Nat
  ediTo : List Nat
deriving Repr, DecidableEq

/-- Lines 501-515 for one image frame: shape check, range checks, in-place
`img *= 255`, then the `uint8` copy handed to PIL.  Returns the mutated frame
and the stored pixel list. -/
def processFrame (img : ImageTensor) : Except String (ImageTensor × List Int) :=
  if ¬ (img.c < img.h ∧ img.c < img.w) then
    .error "AssertionError: expect channel first images"
  else
    match img.pixels.max?, img.pixels.min? with
    | some mx, some mn =>
      if ¬ (mx ≤ 1) then .error "AssertionError: expect pixels lower than 1"
      else if ¬ (0 ≤ mn) then .error "AssertionError: expect pixels greater than 1"
      else
        let scaled := img.pixels.map (fun p => p * 255)
        .ok ({ img with pixels := scaled }, scaled.map (fun p => ⌊p⌋))
    | _, _ => .error "RuntimeError: max of an empty tensor"

/-- Lines 499-517 for one episode's frame view (`ep_dict[key]`, a slice of
the rollout tensor): processes frames in order; on the first failing frame
the already-processed frames keep their in-place mutation and the failing
and later frames are untouched. -/
def processFrameList : List ImageTensor →
    List ImageTensor × Except String (List (List Int))
  | [] => ([], .ok [])
  | img :: rest =>
    match processFrame img with
    | .error e => (img :: rest, .error e)
    | .ok (img', out) =>
      match processFrameList rest with
      | (rest', .error e) => (img' :: rest', .error e)
      | (rest', .ok outs) => (img' :: rest', .ok (out :: outs))

/-- The outer `for ep_dict in ep_dicts` loop of lines 499-517: episode `i`'s
view is the first `num_frames i` frames of observation row `i`; the rest of
the row (frames after the episode's end, including the terminal observation)
is never touched. -/
def processEpRows : List (List ImageTensor) → List Nat →
    List (List ImageTensor) × Except String (List (List (List Int)))
  | rows, [] => (rows, .ok [])
  | [], _ :: _ => ([], .error "IndexError: observation row")
  | row :: rows, nf :: nfs =>
    match processFrameList (row.take nf) with
    | (v', .error e) => ((v' ++ row.drop nf) :: rows, .error e)
    | (v', .ok outs) =>
      match processEpRows rows nfs with
      | (rows', .error e) => ((v' ++ row.drop nf) :: rows', .error e)
      | (rows', .ok outss) => ((v' ++ row.drop nf) :: rows', .ok (outs :: outss))

/-- `_compile_episode_data` (`src/utils.py` lines 456-548).

Per episode `ep`: `num_frames = done_indices[ep] + 1`, the per-step tensors
are sliced to `num_frames`, `episode_index = start_episode_index + ep`,
`frame_index = 0..num_frames-1`, `timestamp = frame_index / fps`,
`(from, to) = (running, running + num_frames)`; afterwards
`index = arange(start_data_index, start_data_index + total_frames)`.
An empty batch raises at `ep_dicts[0]` (line 493).  Returns the rollout as
left by the image loop's in-place `img *= 255` together with the result. -/
def compile_episode_data (rollout : RolloutData) (done_indices : List Nat)
    (start_episode_index : Nat) (start_data_index : Nat) (fps : Rat) :
    RolloutData × Except String CompiledOutput :=
  let batch := rollout.action.length
  let numFramesList := (List.range batch).map
    (fun ep => done_indices.getD ep 0 + 1)
  let total_frames := numFramesList.sum
  if batch = 0 then
    (rollout, .error "IndexError: ep_dicts[0]")
  else
    match processEpRows rollout.observationImage numFramesList with
    | (rows', .error e) => ({ rollout with observationImage := rows' }, .error e)
    | (rows', .ok outss) =>
      ({ rollout with observationImage := rows' },
        .ok
          { episode_index := ((List.range batch).map (fun ep =>
              List.replicate (done_indices.getD ep 0 + 1)
                ((start_episode_index + ep : Nat) : Int))).flatten
            frame_index := ((List.range batch).map (fun ep =>
              List.range (done_indices.getD ep 0 + 1))).flatten
            timestamp := ((List.range batch).map (fun ep =>
              (List.range (done_indices.getD ep 0 + 1)).map
                (fun k => (k : Rat) / fps))).flatten
            next_done := ((List.range batch).map (fun ep =>
              (rollout.done.getD ep []).take
                (done_indices.getD ep 0 + 1))).flatten
            next_reward := ((List.range batch).map (fun ep =>
              (rollout.reward.getD ep []).take
                (done_indices.getD ep 0 + 1))).flatten
            action := ((List.range batch).map (fun ep =>
              (rollout.action.getD ep []).take
                (done_indices.getD ep 0 + 1))).flatten
            imagesUint8 := outss.flatten
            indexCol := List.range' start_data_index total_frames
            ediFrom := (List.range batch).map (fun ep =>
              start_data_index + (numFramesList.take ep).sum)
            ediTo := (List.range batch).map (fun ep =>
              start_data_index + (numFramesList.take (ep + 1)).sum) })

/-- The in-place effect of `img *= 255` on one validated frame. -/
def scaleFrame (img : ImageTensor) : ImageTensor :=
  { img with pixels := img.pixels.map (fun p => p * 255) }

/-- The stored `uint8` copy of one validated frame. -/
def uint8Frame (img : ImageTensor) : List Int :=
  (img.pixels.map (fun p => p * 255)).map (fun p => ⌊p⌋)

/-- A frame is accepted by the image asserts of lines 501-508. -/
def validFrame (img : ImageTensor) : Prop :=
  (img.c < img.h ∧ img.c < img.w) ∧ img.pixels ≠ []
    ∧ ∀ p ∈ img.pixels, 0 ≤ p ∧ p ≤ 1

instance (img : ImageTensor) : Decidable (validFrame img) := by
  unfold validFrame
  infer_instance

theorem processFrame_ok (img : ImageTensor) (hv : validFrame img) :
    processFrame img = .ok (scaleFrame img, uint8Frame img) := by
  obtain ⟨hshape, hne, hrange⟩ := hv
  cases hp : img.pixels with
  | nil => exact absurd hp hne
  | cons a t =>
    have hmax : img.pixels.max? = some (t.foldl max a) := by rw [hp]; rfl
    have hmin : img.pixels.min? = some (t.foldl min a) := by rw [hp]; rfl
    have hmemmax : t.foldl max a ∈ img.pixels :=
      List.max?_mem (fun _ _ => max_choice _ _) hmax
    have hmemmin : t.foldl min a ∈ img.pixels :=
      List.min?_mem (fun _ _ => min_choice _ _) hmin
    have hmx1 : t.foldl max a ≤ 1 := (hrange _ hmemmax).2
    have hmn0 : 0 ≤ t.foldl min a := (hrange _ hmemmin).1
    simp only [processFrame, hmax, hmin, not_not]
    rw [if_neg (not_not_intro hshape), if_neg (not_not_intro hmx1),
      if_neg (not_not_intro hmn0)]
    rfl

theorem processFrameList_ok (l : List ImageTensor)
    (hv : ∀ img ∈ l, validFrame img) :
    processFrameList l = (l.map scaleFrame, .ok (l.map uint8Frame)) := by
  induction l with
  | nil => rfl
  | cons img rest ih =>
    have h := hv img (List.mem_cons_self img rest)
    rw [processFrameList, processFrame_ok img h,
      ih (fun i hi => hv i (List.mem_cons_of_mem _ hi))]
    rfl

theorem processEpRows_ok (rows : List (List ImageTensor)) (nfs : List Nat)
    (hlen : rows.length = nfs.length)
    (hv : ∀ row ∈ rows, ∀ img ∈ row, validFrame img) :
    processEpRows rows nfs
      = (List.zipWith (fun row nf =>
            (row.take nf).map scaleFrame ++ row.drop nf) rows nfs,
        .ok (List.zipWith (fun row nf =>
            (row.take nf).map uint8Frame) rows nfs)) := by
  induction rows generalizing nfs with
  | nil =>
    cases nfs with
    | nil => rfl
    | cons _ _ => simp at hlen
  | cons row rows ih =>
    cases nfs with
    | nil => simp at hlen
    | cons nf nfs =>
      have hvh : ∀ img ∈ row.take nf, validFrame img :=
        fun i hi => hv row (List.mem_cons_self row rows) i (List.mem_of_mem_take hi)
      have hvt : ∀ r ∈ rows, ∀ img ∈ r, validFrame img :=
        fun r hr => hv r (List.mem_cons_of_mem _ hr)
      rw [processEpRows, processFrameList_ok (row.take nf) hvh,
        ih nfs (by simpa using hlen) hvt]
      rfl

theorem getD_range_of_lt (n i : Nat) (h : i < n) :
    (List.range n).getD i 0 = i := by
  simp [List.getD, List.getElem?_range h]

theorem getD_mem_of_lt {α : Type} (l : List α) (i : Nat) (d : α)
    (h : i < l.length) : l.getD i d ∈ l := by
  simp only [List.getD, List.get?_eq_getElem?, List.getElem?_eq_getElem h,
    Option.getD_some]
  exact List.getElem_mem h

theorem sum_take_succ (l : List Nat) (i : Nat) (h : i < l.length) :
    (l.take (i + 1)).sum = (l.take i).sum + l.getD i 0 := by
  rw [List.take_succ, List.sum_append, List.getElem?_eq_getElem h]
  simp [List.getD, List.getElem?_eq_getElem h]

theorem flatten_take_length {α : Type} (ll : List (List α))
    (done_indices : List Nat) (steps batch : Nat)
    (hlen : ll.length = batch)
    (hrow : ∀ r ∈ ll, r.length = steps)
    (hsteps : ∀ i, i < batch → done_indices.getD i 0 < steps) :
    (((List.range batch).map (fun ep =>
        (ll.getD ep []).take (done_indices.getD ep 0 + 1))).flatten).length
      = ((List.range batch).map (fun ep => done_indices.getD ep 0 + 1)).sum := by
  rw [List.length_flatten, List.map_map]
  have hmaps : List.map (List.length ∘ fun ep =>
      (ll.getD ep []).take (done_indices.getD ep 0 + 1)) (List.range batch)
      = List.map (fun ep => done_indices.getD ep 0 + 1) (List.range batch) := by
    apply List.map_congr_left
    intro ep hep
    have hlt : ep < batch := List.mem_range.mp hep
    have hmem : ll.getD ep [] ∈ ll := getD_mem_of_lt ll ep [] (hlen ▸ hlt)
    have hsl : (ll.getD ep []).length = steps := hrow _ hmem
    simp only [Function.comp_apply, List.length_take, hsl]
    have := hsteps ep hlt
    omega
  rw [hmaps]

/-- C6: for a well-shaped rollout (`batch > 0` rows, `steps` steps per
per-step tensor, one extra observation frame, every `done_index` within the
step budget, valid image frames), episode compilation succeeds and:
episode `i` contributes `done_indices[i] + 1` frames with
`episode_index = start_episode_index + i`, `frame_index = 0..len-1` and
`timestamp = frame_index / fps`; the `(from, to)` ranges start at
`start_data_index`, have the episode lengths as widths and are consecutive,
ending at `start_data_index + total_frames`; and the global `index` column is
`arange(start_data_index, start_data_index + total_frames)`. -/
theorem compile_episode_data_indices (rollout : RolloutData)
    (done_indices : List Nat) (sei sdi steps : Nat) (fps : Rat)
    (hbatch : 0 < rollout.action.length)
    (hobs : rollout.observationImage.length = rollout.action.length)
    (hactrow : ∀ r ∈ rollout.action, r.length = steps)
    (hrewrow : ∀ r ∈ rollout.reward, r.length = steps)
    (hdonerow : ∀ r ∈ rollout.done, r.length = steps)
    (hrew : rollout.reward.length = rollout.action.length)
    (hdone : rollout.done.length = rollout.action.length)
    (hsteps : ∀ i, i < rollout.action.length → done_indices.getD i 0 < steps)
    (hv : ∀ row ∈ rollout.observationImage, ∀ img ∈ row, validFrame img) :
    ∃ out, (compile_episode_data rollout done_indices sei sdi fps).2 = .ok out
      ∧ out.episode_index = ((List.range rollout.action.length).map (fun i =>
          List.replicate (done_indices.getD i 0 + 1)
            ((sei + i : Nat) : Int))).flatten
      ∧ out.frame_index = ((List.range rollout.action.length).map (fun i =>
          List.range (done_indices.getD i 0 + 1))).flatten
      ∧ out.timestamp = ((List.range rollout.action.length).map (fun i =>
          (List.range (done_indices.getD i 0 + 1)).map
            (fun k => (k : Rat) / fps))).flatten
      ∧ out.indexCol = List.range' sdi
          (((List.range rollout.action.length).map
            (fun i => done_indices.getD i 0 + 1)).sum)
      ∧ out.ediFrom.length = rollout.action.length
      ∧ out.ediTo.length = rollout.action.length
      ∧ out.ediFrom.getD 0 0 = sdi
      ∧ (∀ i, i < rollout.action.length →
          out.ediTo.getD i 0 = out.ediFrom.getD i 0 + (done_indices.getD i 0 + 1))
      ∧ (∀ i, i + 1 < rollout.action.length →
          out.ediFrom.getD (i + 1) 0 = out.ediTo.getD i 0)
      ∧ out.ediTo.getD (rollout.action.length - 1) 0
          = sdi + ((List.range rollout.action.length).map
              (fun i => done_indices.getD i 0 + 1)).sum
      ∧ out.action.length = ((List.range rollout.action.length).map
          (fun i => done_indices.getD i 0 + 1)).sum
      ∧ out.next_done.length = ((List.range rollout.action.length).map
          (fun i => done_indices.getD i 0 + 1)).sum
      ∧ out.next_reward.length = ((List.range rollout.action.length).map
          (fun i => done_indices.getD i 0 + 1)).sum := by
  have hrows := processEpRows_ok rollout.observationImage
    ((List.range rollout.action.length).map (fun ep => done_indices.getD ep 0 + 1))
    (by simpa using hobs) hv
  have hnfsLen : ((List.range rollout.action.length).map
      (fun ep => done_indices.getD ep 0 + 1)).length
      = rollout.action.length := by simp
  rw [compile_episode_data]
  simp only [if_neg hbatch.ne', hrows]
  refine ⟨_, rfl, rfl, rfl, rfl, rfl, by simp, by simp, ?_, ?_, ?_, ?_, ?_, ?_, ?_⟩
  · rw [getD_map_of_lt _ (List.range rollout.action.length) 0 0 0
        (by simpa using hbatch),
      getD_range_of_lt _ _ hbatch]
    simp
  · intro i hi
    rw [getD_map_of_lt _ (List.range rollout.action.length) i 0 0
        (by simpa using hi),
      getD_range_of_lt _ _ hi,
      getD_map_of_lt _ (List.range rollout.action.length) i 0 0
        (by simpa using hi),
      getD_range_of_lt _ _ hi,
      sum_take_succ _ i (by simpa using hi),
      getD_map_of_lt (fun ep => done_indices.getD ep 0 + 1)
        (List.range rollout.action.length) i 0 0 (by simpa using hi),
      getD_range_of_lt _ _ hi]
    omega
  · intro i hi
    rw [getD_map_of_lt _ (List.range rollout.action.length) (i + 1) 0 0
        (by simpa using hi),
      getD_range_of_lt _ _ hi,
      getD_map_of_lt _ (List.range rollout.action.length) i 0 0
        (by simpa using (by omega : i < rollout.action.length)),
      getD_range_of_lt _ _ (by omega : i < rollout.action.length)]
  · rw [getD_map_of_lt _ (List.range rollout.action.length)
        (rollout.action.length - 1) 0 0 (by simp; omega),
      getD_range_of_lt _ _ (by omega)]
    have hb1 : rollout.action.length - 1 + 1 = rollout.action.length := by omega
    rw [hb1, List.take_of_length_le (le_of_eq hnfsLen)]
  · exact flatten_take_length rollout.action done_indices steps
      rollout.action.length rfl hactrow hsteps
  · exact flatten_take_length rollout.done done_indices steps
      rollout.action.length hdone hdonerow hsteps
  · exact flatten_take_length rollout.reward done_indices steps
      rollout.action.length hrew hrewrow hsteps

/-- A tiny valid channel-first image frame (shape 1×2×2, pixels in [0,1]). -/
def tinyImg : ImageTensor := ⟨1, 2, 2, [0, 1, 0, 1]⟩

/-- The round-trip scenario of the claim: batch 2, 5 steps, row 0 done at
step 2, row 1 done at step 4 (cumulative done flags), one extra observation
frame per row. -/
def roundTripRollout : RolloutData :=
  { action := [[[1], [1], [1], [1], [1]], [[2], [2], [2], [2], [2]]]
    reward := [[1, 0, 0, 0, 0], [0, 0, 0, 0, 1]]
    done := [[false, false, true, true, true],
             [false, false, false, false, true]]
    observationImage := [List.replicate 6 tinyImg, List.replicate 6 tinyImg] }

/-- Witness for `compile_episode_data_indices` on the claim's round-trip
scenario (`batch = 2`, `steps = 5`, done at steps 2 and 4, start indices 0):
the episode lengths are 3 and 5 and the emitted ranges are `(0, 3)` and
`(3, 8)`. -/
theorem compile_episode_data_indices_witness :
    (0 < roundTripRollout.action.length
      ∧ roundTripRollout.observationImage.length = roundTripRollout.action.length
      ∧ (∀ r ∈ roundTripRollout.action, r.length = 5)
      ∧ (∀ r ∈ roundTripRollout.reward, r.length = 5)
      ∧ (∀ r ∈ roundTripRollout.done, r.length = 5)
      ∧ roundTripRollout.reward.length = roundTripRollout.action.length
      ∧ roundTripRollout.done.length = roundTripRollout.action.length
      ∧ (∀ i, i < roundTripRollout.action.length → ([2, 4] : List Nat).getD i 0 < 5)
      ∧ (∀ row ∈ roundTripRollout.observationImage, ∀ img ∈ row, validFrame img))
    ∧ (∃ out, (compile_episode_data roundTripRollout [2, 4] 0 0 30).2 = .ok out
      ∧ out.episode_index = ((List.range roundTripRollout.action.length).map (fun i =>
          List.replicate (([2, 4] : List Nat).getD i 0 + 1) ((0 + i : Nat) : Int))).flatten
      ∧ out.frame_index = ((List.range roundTripRollout.action.length).map (fun i =>
          List.range (([2, 4] : List Nat).getD i 0 + 1))).flatten
      ∧ out.timestamp = ((List.range roundTripRollout.action.length).map (fun i =>
          (List.range (([2, 4] : List Nat).getD i 0 + 1)).map
            (fun k => (k : Rat) / 30))).flatten
      ∧ out.indexCol = List.range' 0
          (((List.range roundTripRollout.action.length).map
            (fun i => ([2, 4] : List Nat).getD i 0 + 1)).sum)
      ∧ out.ediFrom.length = roundTripRollout.action.length
      ∧ out.ediTo.length = roundTripRollout.action.length
      ∧ out.ediFrom.getD 0 0 = 0
      ∧ (∀ i, i < roundTripRollout.action.length →
          out.ediTo.getD i 0 = out.ediFrom.getD i 0 + (([2, 4] : List Nat).getD i 0 + 1))
      ∧ (∀ i, i + 1 < roundTripRollout.action.length →
          out.ediFrom.getD (i + 1) 0 = out.ediTo.getD i 0)
      ∧ out.ediTo.getD (roundTripRollout.action.length - 1) 0
          = 0 + ((List.range roundTripRollout.action.length).map
              (fun i => ([2, 4] : List Nat).getD i 0 + 1)).sum
      ∧ out.action.length = ((List.range roundTripRollout.action.length).map
          (fun i => ([2, 4] : List Nat).getD i 0 + 1)).sum
      ∧ out.next_done.length = ((List.range roundTripRollout.action.length).map
          (fun i => ([2, 4] : List Nat).getD i 0 + 1)).sum
      ∧ out.next_reward.length = ((List.range roundTripRollout.action.length).map
          (fun i => ([2, 4] : List Nat).getD i 0 + 1)).sum)
    ∧ (compile_episode_data roundTripRollout [2, 4] 0 0 30).2.toOption.map
        (fun o => o.ediFrom) = some [0, 3]
    ∧ (compile_episode_data roundTripRollout [2, 4] 0 0 30).2.toOption.map
        (fun o => o.ediTo) = some [3, 8] :=
  ⟨⟨by decide, by decide, by decide, by decide, by decide, by decide, by decide,
      by decide, by decide⟩,
    compile_episode_data_indices roundTripRollout [2, 4] 0 0 5 30
      (by decide) (by decide) (by decide) (by decide) (by decide) (by decide)
      (by decide) (by decide) (by decide),
    by with_unfolding_all decide,
    by with_unfolding_all decide⟩

/-- A one-step rollout whose first observation frame holds pixel values 1 and
0 — valid input for the image asserts. -/
def sampleRollout : RolloutData :=
  ⟨[[[0]]], [[0]], [[true]],
    [[⟨1, 2, 2, [1, 0, 0, 1]⟩, ⟨1, 2, 2, [0, 0, 0, 0]⟩]]⟩

/-- C10 counterexample: compiling `sampleRollout` succeeds, yet afterwards
the rollout's first observation image holds `[255, 0, 0, 255]` instead of
the original `[1, 0, 0, 1]` — `img *= 255` (line 511) wrote through the
slice view into the caller's tensor, so the rollout batch is not left
unchanged. -/
theorem compile_mutates_input_images :
    (compile_episode_data sampleRollout [0] 0 0 1).2.toOption.isSome = true
    ∧ (compile_episode_data sampleRollout [0] 0 0 1).1.observationImage
        = [[⟨1, 2, 2, [255, 0, 0, 255]⟩, ⟨1, 2, 2, [0, 0, 0, 0]⟩]]
    ∧ (compile_episode_data sampleRollout [0] 0 0 1).1.observationImage
        ≠ sampleRollout.observationImage := by
  with_unfolding_all decide

/-- C10 amended: for a nonempty batch with valid image frames, episode
compilation leaves the rollout's `action`, `reward` and `done` tensors
unchanged, but multiplies the pixels of the first `done_index + 1` image
frames of every batch row by 255 in place; the frames after the episode end
(including the terminal observation) are untouched. -/
theorem compile_episode_data_image_mutation (rollout : RolloutData)
    (done_indices : List Nat) (sei sdi : Nat) (fps : Rat)
    (hbatch : 0 < rollout.action.length)
    (hobs : rollout.observationImage.length = rollout.action.length)
    (hv : ∀ row ∈ rollout.observationImage, ∀ img ∈ row, validFrame img) :
    (compile_episode_data rollout done_indices sei sdi fps).1.action = rollout.action
    ∧ (compile_episode_data rollout done_indices sei sdi fps).1.reward = rollout.reward
    ∧ (compile_episode_data rollout done_indices sei sdi fps).1.done = rollout.done
    ∧ (compile_episode_data rollout done_indices sei sdi fps).1.observationImage
        = List.zipWith (fun row nf => (row.take nf).map scaleFrame ++ row.drop nf)
            rollout.observationImage
            ((List.range rollout.action.length).map
              (fun ep => done_indices.getD ep 0 + 1)) := by
  have hrows := processEpRows_ok rollout.observationImage
    ((List.range rollout.action.length).map (fun ep => done_indices.getD ep 0 + 1))
    (by simpa using hobs) hv
  rw [compile_episode_data]
  simp only [if_neg hbatch.ne', hrows]
  exact ⟨trivial, trivial, trivial, trivial⟩

/-- Witness for `compile_episode_data_image_mutation` on `sampleRollout`:
the single in-episode frame is scaled by 255, the terminal frame is not. -/
theorem compile_episode_data_image_mutation_witness :
    (0 < sampleRollout.action.length
      ∧ sampleRollout.observationImage.length = sampleRollout.action.length
      ∧ ∀ row ∈ sampleRollout.observationImage, ∀ img ∈ row, validFrame img)
    ∧ ((compile_episode_data sampleRollout [0] 0 0 1).1.action = sampleRollout.action
      ∧ (compile_episode_data sampleRollout [0] 0 0 1).1.reward = sampleRollout.reward
      ∧ (compile_episode_data sampleRollout [0] 0 0 1).1.done = sampleRollout.done
      ∧ (compile_episode_data sampleRollout [0] 0 0 1).1.observationImage
          = List.zipWith (fun row nf => (row.take nf).map scaleFrame ++ row.drop nf)
              sampleRollout.observationImage
              ((List.range sampleRollout.action.length).map
                (fun ep => ([0] : List Nat).getD ep 0 + 1))) :=
  ⟨⟨by decide, by decide, by decide⟩,
    compile_episode_data_image_mutation sampleRollout [0] 0 0 1
      (by decide) (by decide) (by decide)⟩

/-!  `eval_policy` batching, seeding, metric accumulation and truncation
(`src/utils.py` lines 282-344 and 419-445).

The rollout call itself drives external collaborators (environments and the
policy), so the embedding is parametrised by `rolloutOf : Nat → EvalRollout`,
the per-batch tensors that `rollout` returned; everything `eval_policy`
computes from them (boundary resolution, masked metrics, seed bookkeeping,
tail truncation, aggregation) is embedded from the source:
 * line 284: `n_batches = n_episodes // num_envs + int(n_episodes % num_envs != 0)`;
 * line 319: batch seeds `range(start_seed + b*num_envs, start_seed + (b+1)*num_envs)`;
 * lines 331-336: the validity mask (shared `doneIndices`/`validityMask`);
 * lines 338-344: masked sum/max/any-success per batch element, `extend`ed
   batch after batch;
 * lines 420-437: `per_episode` = `enumerate(zip(...[:n_episodes], strict=True))`
   (the embedded `zip4` truncates to the shortest list; under the shape
   hypotheses all four lists have the same length, so `strict` never fires);
 * lines 438-444: aggregated means over the `[:n_episodes]` prefixes
   (`np.nanmean` of a boolean list is `count/len`; wall-clock `eval_s` and
   `eval_ep_s` are not modellable).  Floats are exact rationals. -/

def n_batches (n_episodes num_envs : Nat) : Nat :=
  n_episodes / num_envs + (if n_episodes % num_envs ≠ 0 then 1 else 0)

/-- Per-batch rollout tensors consumed by the metric extraction. -/
structure EvalRollout where
  reward : List (List Rat)
  success : List (List Bool)
  done : List (List Bool)
deriving Repr, DecidableEq

/-- `einops.reduce(x, "b n -> b", "max")` on one row. -/
def listMax : List Rat → Rat
  | [] => 0
  | h :: t => t.foldl max h

/-- Line 338: `einops.reduce(reward * mask, "b n -> b", "sum")`. -/
def batchSumRewards (ro : EvalRollout) : List Rat :=
  List.zipWith (fun rrow mrow =>
      (List.zipWith (fun r m => r * (if m then (1 : Rat) else 0)) rrow mrow).sum)
    ro.reward (validityMask ro.done)

/-- Line 340: `einops.reduce(reward * mask, "b n -> b", "max")`. -/
def batchMaxRewards (ro : EvalRollout) : List Rat :=
  List.zipWith (fun rrow mrow =>
      listMax (List.zipWith (fun r m => r * (if m then (1 : Rat) else 0)) rrow mrow))
    ro.reward (validityMask ro.done)

/-- Line 342: `einops.reduce(success * mask, "b n -> b", "any")`. -/
def batchSuccesses (ro : EvalRollout) : List Bool :=
  List.zipWith (fun srow mrow =>
      (List.zipWith (fun s m => s && m) srow mrow).any id)
    ro.success (validityMask ro.done)

/-- One entry of `info["per_episode"]` (lines 420-437). -/
structure PerEpisode where
  episode_ix : Nat
  sum_reward : Rat
  max_reward : Rat
  success : Bool
  seed : Nat
deriving Repr, DecidableEq

/-- Python's 4-ary `zip` (truncating to the shortest input). -/
def zip4 {α β γ δ : Type} : List α → List β → List γ → List δ →
    List (α × β × γ × δ)
  | a :: as, b :: bs, c :: cs, d :: ds => (a, b, c, d) :: zip4 as bs cs ds
  | _, _, _, _ => []

/-- The metric bookkeeping of `eval_policy`: returns `per_episode` and the
aggregated `(avg_sum_reward, avg_max_reward, pc_success)`. -/
def eval_policy_info (n_episodes num_envs start_seed : Nat)
    (rolloutOf : Nat → EvalRollout) :
    List PerEpisode × (Rat × Rat × Rat) :=
  let nb := n_batches n_episodes num_envs
  let sum_rewards := ((List.range nb).map
    (fun b => batchSumRewards (rolloutOf b))).flatten
  let max_rewards := ((List.range nb).map
    (fun b => batchMaxRewards (rolloutOf b))).flatten
  let all_successes := ((List.range nb).map
    (fun b => batchSuccesses (rolloutOf b))).flatten
  let all_seeds := ((List.range nb).map
    (fun b => List.range' (start_seed + b * num_envs) num_envs)).flatten
  let per_episode := (zip4 (sum_rewards.take n_episodes)
      (max_rewards.take n_episodes) (all_successes.take n_episodes)
      (all_seeds.take n_episodes)).enum.map
    (fun p => { episode_ix := p.1, sum_reward := p.2.1, max_reward := p.2.2.1,
                success := p.2.2.2.1, seed := p.2.2.2.2 : PerEpisode })
  (per_episode,
    ((sum_rewards.take n_episodes).sum / (n_episodes : Rat),
      (max_rewards.take n_episodes).sum / (n_episodes : Rat),
      (((all_successes.take n_episodes).countP id : Nat) : Rat)
        / (n_episodes : Rat) * 100))

theorem n_batches_eq_ceil (n w : Nat) (hw : 0 < w) :
    n_batches n w = (n + w - 1) / w := by
  obtain ⟨t, ht⟩ : ∃ t, w * (n / w) = t := ⟨_, rfl⟩
  have hdm : t + n % w = n := by rw [← ht]; exact Nat.div_add_mod n w
  have hlt : n % w < w := Nat.mod_lt n hw
  by_cases h0 : n % w = 0
  · have hrw : n + w - 1 = w * (n / w) + (w - 1) := by rw [ht]; omega
    rw [n_batches, if_neg (by simpa using h0), hrw, Nat.mul_add_div hw,
      Nat.div_eq_of_lt (show w - 1 < w by omega)]
  · have hrw : n + w - 1 = w * (n / w + 1) + (n % w - 1) := by
      have hexp : w * (n / w + 1) = w * (n / w) + w := by ring
      rw [hexp, ht]
      omega
    rw [n_batches, if_pos h0, hrw, Nat.mul_add_div hw,
      Nat.div_eq_of_lt (show n % w - 1 < w by omega), Nat.add_zero]

theorem le_n_batches_mul (n w : Nat) (hw : 0 < w) :
    n ≤ n_batches n w * w := by
  obtain ⟨t, ht⟩ : ∃ t, w * (n / w) = t := ⟨_, rfl⟩
  have hdm : t + n % w = n := by rw [← ht]; exact Nat.div_add_mod n w
  have hlt : n % w < w := Nat.mod_lt n hw
  by_cases h0 : n % w = 0
  · rw [n_batches, if_neg (by simpa using h0), Nat.add_zero]
    have hq : n / w * w = t := by rw [← ht]; ring
    omega
  · rw [n_batches, if_pos h0]
    have hq : (n / w + 1) * w = t + w := by rw [← ht]; ring
    omega

theorem take_range' (n : Nat) : ∀ (m s : Nat),
    (List.range' s m).take n = List.range' s (min n m) := by
  induction n with
  | zero => intro m s; simp
  | succ n ih =>
    intro m s
    cases m with
    | zero => simp
    | succ m =>
      rw [List.range'_succ, List.take_succ_cons, ih m (s + 1),
        Nat.succ_min_succ]
      rw [show (n ⊓ m).succ = (n ⊓ m) + 1 from rfl, List.range'_succ]

theorem flatten_range' (s w : Nat) : ∀ (k : Nat),
    ((List.range k).map (fun b => List.range' (s + b * w) w)).flatten
      = List.range' s (k * w) := by
  intro k
  induction k with
  | zero => simp
  | succ k ih =>
    rw [List.range_succ, List.map_append, List.flatten_append, ih]
    simp only [List.map_cons, List.map_nil, List.flatten_cons,
      List.flatten_nil, List.append_nil]
    have happ := List.range'_append s (k * w) w 1
    rw [Nat.one_mul] at happ
    rw [happ, show w + k * w = (k + 1) * w from by ring]

theorem flatten_const_length {α : Type} (f : Nat → List α) (k w : Nat)
    (hf : ∀ b, b < k → (f b).length = w) :
    (((List.range k).map f).flatten).length = k * w := by
  rw [List.length_flatten, List.map_map]
  have : List.map (List.length ∘ f) (List.range k)
      = List.map (fun _ => w) (List.range k) := by
    apply List.map_congr_left
    intro b hb
    exact hf b (List.mem_range.mp hb)
  rw [this]
  simp [Nat.mul_comm]

theorem zip4_components {α β γ δ : Type} :
    ∀ (as : List α) (bs : List β) (cs : List γ) (ds : List δ),
      as.length = bs.length → bs.length = cs.length → cs.length = ds.length →
      (zip4 as bs cs ds).length = as.length
      ∧ (zip4 as bs cs ds).map (fun p => p.1) = as
      ∧ (zip4 as bs cs ds).map (fun p => p.2.1) = bs
      ∧ (zip4 as bs cs ds).map (fun p => p.2.2.1) = cs
      ∧ (zip4 as bs cs ds).map (fun p => p.2.2.2) = ds := by
  intro as
  induction as with
  | nil =>
    intro bs cs ds h1 h2 h3
    cases bs with
    | cons _ _ => simp at h1
    | nil =>
      cases cs with
      | cons _ _ => simp at h2
      | nil =>
        cases ds with
        | cons _ _ => simp at h3
        | nil => exact ⟨rfl, rfl, rfl, rfl, rfl⟩
  | cons a as ih =>
    intro bs cs ds h1 h2 h3
    cases bs with
    | nil => simp at h1
    | cons b bs =>
      cases cs with
      | nil => simp at h2
      | cons c cs =>
        cases ds with
        | nil => simp at h3
        | cons d ds =>
          obtain ⟨hl, hm1, hm2, hm3, hm4⟩ := ih bs cs ds
            (by simpa using h1) (by simpa using h2) (by simpa using h3)
          refine ⟨?_, ?_, ?_, ?_, ?_⟩ <;>
            simp [zip4, hl, hm1, hm2, hm3, hm4]

/-- The entry constructor of lines 421-427 (used to state facts about
`eval_policy_info`'s `per_episode` list; definitionally the lambda used
there). -/
def mkPerEpisode (p : Nat × (Rat × Rat × Bool × Nat)) : PerEpisode :=
  { episode_ix := p.1, sum_reward := p.2.1, max_reward := p.2.2.1,
    success := p.2.2.2.1, seed := p.2.2.2.2 }

theorem per_episode_maps (l : List (Rat × Rat × Bool × Nat)) :
    ((l.enum.map mkPerEpisode).length = l.length)
    ∧ ((l.enum.map mkPerEpisode).map PerEpisode.episode_ix
        = List.range l.length)
    ∧ ((l.enum.map mkPerEpisode).map PerEpisode.sum_reward
        = l.map (fun t => t.1))
    ∧ ((l.enum.map mkPerEpisode).map PerEpisode.max_reward
        = l.map (fun t => t.2.1))
    ∧ ((l.enum.map mkPerEpisode).map PerEpisode.success
        = l.map (fun t => t.2.2.1))
    ∧ ((l.enum.map mkPerEpisode).map PerEpisode.seed
        = l.map (fun t => t.2.2.2)) := by
  have hfst := List.enum_map_fst l
  have hsnd1 := congrArg (List.map (fun t : Rat × Rat × Bool × Nat => t.1))
    (List.enum_map_snd l)
  have hsnd2 := congrArg (List.map (fun t : Rat × Rat × Bool × Nat => t.2.1))
    (List.enum_map_snd l)
  have hsnd3 := congrArg (List.map (fun t : Rat × Rat × Bool × Nat => t.2.2.1))
    (List.enum_map_snd l)
  have hsnd4 := congrArg (List.map (fun t : Rat × Rat × Bool × Nat => t.2.2.2))
    (List.enum_map_snd l)
  rw [List.map_map] at hsnd1 hsnd2 hsnd3 hsnd4
  refine ⟨by simp, ?_, ?_, ?_, ?_, ?_⟩
  · rw [List.map_map]
    exact hfst
  · rw [List.map_map]
    exact hsnd1
  · rw [List.map_map]
    exact hsnd2
  · rw [List.map_map]
    exact hsnd3
  · rw [List.map_map]
    exact hsnd4

/-- C7: `eval_policy`'s metric bookkeeping runs exactly
`ceil(n_episodes / num_envs)` batches, keeps the *first* `n_episodes`
entries of each concatenated per-episode metric stream (discarding the
excess from the tail), returns exactly `n_episodes` entries whose seeds are
`start_seed, …, start_seed + n_episodes - 1` in order, and computes each
aggregated metric over exactly those returned first `n_episodes` entries. -/
theorem eval_policy_batching_seeds (n_episodes num_envs start_seed : Nat)
    (rolloutOf : Nat → EvalRollout)
    (hne : 0 < n_episodes) (hw : 0 < num_envs)
    (hshape : ∀ b, b < n_batches n_episodes num_envs →
        (rolloutOf b).reward.length = num_envs
        ∧ (rolloutOf b).success.length = num_envs
        ∧ (rolloutOf b).done.length = num_envs) :
    n_batches n_episodes num_envs = (n_episodes + num_envs - 1) / num_envs
    ∧ (eval_policy_info n_episodes num_envs start_seed rolloutOf).1.length
        = n_episodes
    ∧ (eval_policy_info n_episodes num_envs start_seed rolloutOf).1.map
        PerEpisode.seed = List.range' start_seed n_episodes
    ∧ (eval_policy_info n_episodes num_envs start_seed rolloutOf).1.map
        PerEpisode.episode_ix = List.range n_episodes
    ∧ (eval_policy_info n_episodes num_envs start_seed rolloutOf).1.map
        PerEpisode.sum_reward
        = (((List.range (n_batches n_episodes num_envs)).map
            (fun b => batchSumRewards (rolloutOf b))).flatten).take n_episodes
    ∧ (eval_policy_info n_episodes num_envs start_seed rolloutOf).1.map
        PerEpisode.max_reward
        = (((List.range (n_batches n_episodes num_envs)).map
            (fun b => batchMaxRewards (rolloutOf b))).flatten).take n_episodes
    ∧ (eval_policy_info n_episodes num_envs start_seed rolloutOf).1.map
        PerEpisode.success
        = (((List.range (n_batches n_episodes num_envs)).map
            (fun b => batchSuccesses (rolloutOf b))).flatten).take n_episodes
    ∧ (eval_policy_info n_episodes num_envs start_seed rolloutOf).2.1
        = (((eval_policy_info n_episodes num_envs start_seed rolloutOf).1.map
            PerEpisode.sum_reward).sum) / (n_episodes : Rat)
    ∧ (eval_policy_info n_episodes num_envs start_seed rolloutOf).2.2.1
        = (((eval_policy_info n_episodes num_envs start_seed rolloutOf).1.map
            PerEpisode.max_reward).sum) / (n_episodes : Rat)
    ∧ (eval_policy_info n_episodes num_envs start_seed rolloutOf).2.2.2
        = ((((eval_policy_info n_episodes num_envs start_seed rolloutOf).1.map
            PerEpisode.success).countP id : Nat) : Rat)
          / (n_episodes : Rat) * 100 := by
  have hTot : n_episodes ≤ n_batches n_episodes num_envs * num_envs :=
    le_n_batches_mul n_episodes num_envs hw
  have hlenSum : ∀ b, b < n_batches n_episodes num_envs →
      (batchSumRewards (rolloutOf b)).length = num_envs := by
    intro b hb
    simp [batchSumRewards, validityMask, doneIndices,
      (hshape b hb).1, (hshape b hb).2.2]
  have hlenMax : ∀ b, b < n_batches n_episodes num_envs →
      (batchMaxRewards (rolloutOf b)).length = num_envs := by
    intro b hb
    simp [batchMaxRewards, validityMask, doneIndices,
      (hshape b hb).1, (hshape b hb).2.2]
  have hlenSucc : ∀ b, b < n_batches n_episodes num_envs →
      (batchSuccesses (rolloutOf b)).length = num_envs := by
    intro b hb
    simp [batchSuccesses, validityMask, doneIndices,
      (hshape b hb).2.1, (hshape b hb).2.2]
  have hlenSeeds : ∀ b, b < n_batches n_episodes num_envs →
      (List.range' (start_seed + b * num_envs) num_envs).length = num_envs := by
    intro b _
    simp
  have hSumLen := flatten_const_length (fun b => batchSumRewards (rolloutOf b))
    (n_batches n_episodes num_envs) num_envs hlenSum
  have hMaxLen := flatten_const_length (fun b => batchMaxRewards (rolloutOf b))
    (n_batches n_episodes num_envs) num_envs hlenMax
  have hSuccLen := flatten_const_length (fun b => batchSuccesses (rolloutOf b))
    (n_batches n_episodes num_envs) num_envs hlenSucc
  have hSeedsLen := flatten_const_length
    (fun b => List.range' (start_seed + b * num_envs) num_envs)
    (n_batches n_episodes num_envs) num_envs hlenSeeds
  have htakeSum : ((((List.range (n_batches n_episodes num_envs)).map
      (fun b => batchSumRewards (rolloutOf b))).flatten).take n_episodes).length
      = n_episodes := by
    rw [List.length_take, hSumLen]
    exact Nat.min_eq_left hTot
  have htakeMax : ((((List.range (n_batches n_episodes num_envs)).map
      (fun b => batchMaxRewards (rolloutOf b))).flatten).take n_episodes).length
      = n_episodes := by
    rw [List.length_take, hMaxLen]
    exact Nat.min_eq_left hTot
  have htakeSucc : ((((List.range (n_batches n_episodes num_envs)).map
      (fun b => batchSuccesses (rolloutOf b))).flatten).take n_episodes).length
      = n_episodes := by
    rw [List.length_take, hSuccLen]
    exact Nat.min_eq_left hTot
  have htakeSeeds : ((((List.range (n_batches n_episodes num_envs)).map
      (fun b => List.range' (start_seed + b * num_envs) num_envs)).flatten).take
        n_episodes).length = n_episodes := by
    rw [List.length_take, hSeedsLen]
    exact Nat.min_eq_left hTot
  have hseedsVal : ((((List.range (n_batches n_episodes num_envs)).map
      (fun b => List.range' (start_seed + b * num_envs) num_envs)).flatten).take
        n_episodes) = List.range' start_seed n_episodes := by
    rw [flatten_range' start_seed num_envs (n_batches n_episodes num_envs),
      take_range', Nat.min_eq_left hTot]
  obtain ⟨hzl, hz1, hz2, hz3, hz4⟩ := zip4_components
    ((((List.range (n_batches n_episodes num_envs)).map
      (fun b => batchSumRewards (rolloutOf b))).flatten).take n_episodes)
    ((((List.range (n_batches n_episodes num_envs)).map
      (fun b => batchMaxRewards (rolloutOf b))).flatten).take n_episodes)
    ((((List.range (n_batches n_episodes num_envs)).map
      (fun b => batchSuccesses (rolloutOf b))).flatten).take n_episodes)
    ((((List.range (n_batches n_episodes num_envs)).map
      (fun b => List.range' (start_seed + b * num_envs) num_envs)).flatten).take
        n_episodes)
    (by rw [htakeSum, htakeMax]) (by rw [htakeMax, htakeSucc])
    (by rw [htakeSucc, htakeSeeds])
  obtain ⟨hpl, hp1, hp2, hp3, hp4, hp5⟩ := per_episode_maps
    (zip4
      ((((List.range (n_batches n_episodes num_envs)).map
        (fun b => batchSumRewards (rolloutOf b))).flatten).take n_episodes)
      ((((List.range (n_batches n_episodes num_envs)).map
        (fun b => batchMaxRewards (rolloutOf b))).flatten).take n_episodes)
      ((((List.range (n_batches n_episodes num_envs)).map
        (fun b => batchSuccesses (rolloutOf b))).flatten).take n_episodes)
      ((((List.range (n_batches n_episodes num_envs)).map
        (fun b => List.range' (start_seed + b * num_envs) num_envs)).flatten).take
          n_episodes))
  have hfstE : (eval_policy_info n_episodes num_envs start_seed rolloutOf).1
      = (zip4
        ((((List.range (n_batches n_episodes num_envs)).map
          (fun b => batchSumRewards (rolloutOf b))).flatten).take n_episodes)
        ((((List.range (n_batches n_episodes num_envs)).map
          (fun b => batchMaxRewards (rolloutOf b))).flatten).take n_episodes)
        ((((List.range (n_batches n_episodes num_envs)).map
          (fun b => batchSuccesses (rolloutOf b))).flatten).take n_episodes)
        ((((List.range (n_batches n_episodes num_envs)).map
          (fun b => List.range' (start_seed + b * num_envs)
            num_envs)).flatten).take n_episodes)).enum.map mkPerEpisode := rfl
  have hlenE : (eval_policy_info n_episodes num_envs start_seed rolloutOf).1.length
      = n_episodes := by
    rw [hfstE, hpl, hzl, htakeSum]
  refine ⟨n_batches_eq_ceil n_episodes num_envs hw, hlenE, ?_, ?_, ?_, ?_, ?_,
    ?_, ?_, ?_⟩
  · rw [hfstE, hp5, hz4, hseedsVal]
  · rw [hfstE, hp1, hzl, htakeSum]
  · rw [hfstE, hp2, hz1]
  · rw [hfstE, hp3, hz2]
  · rw [hfstE, hp4, hz3]
  · rw [hfstE, hp2, hz1]
    rfl
  · rw [hfstE, hp3, hz2]
    rfl
  · rw [hfstE, hp4, hz3]
    rw [show (eval_policy_info n_episodes num_envs start_seed rolloutOf).2.2.2
      = ((((((List.range (n_batches n_episodes num_envs)).map
          (fun b => batchSuccesses (rolloutOf b))).flatten).take
            n_episodes).countP id : Nat) : Rat) / (n_episodes : Rat) * 100
      from rfl]

/-- A fixed 2-environment, 2-step rollout used by the `eval_policy` witness. -/
def constEvalRollout : EvalRollout :=
  ⟨[[1, 2], [3, 4]], [[false, true], [true, false]],
    [[false, true], [true, true]]⟩

/-- Witness for `eval_policy_batching_seeds` at `n_episodes = 5`,
`num_envs = 2`, `start_seed = 7`: 3 batches, 5 returned entries with seeds
`7, 8, 9, 10, 11`. -/
theorem eval_policy_batching_seeds_witness :
    ((0 : Nat) < 5 ∧ (0 : Nat) < 2
      ∧ (∀ b, b < n_batches 5 2 →
          (constEvalRollout.reward.length = 2
            ∧ constEvalRollout.success.length = 2
            ∧ constEvalRollout.done.length = 2)))
    ∧ (n_batches 5 2 = (5 + 2 - 1) / 2
      ∧ (eval_policy_info 5 2 7 (fun _ => constEvalRollout)).1.length = 5
      ∧ (eval_policy_info 5 2 7 (fun _ => constEvalRollout)).1.map
          PerEpisode.seed = List.range' 7 5
      ∧ (eval_policy_info 5 2 7 (fun _ => constEvalRollout)).1.map
          PerEpisode.episode_ix = List.range 5
      ∧ (eval_policy_info 5 2 7 (fun _ => constEvalRollout)).1.map
          PerEpisode.sum_reward
          = (((List.range (n_batches 5 2)).map
              (fun b => batchSumRewards ((fun _ => constEvalRollout) b))).flatten).take 5
      ∧ (eval_policy_info 5 2 7 (fun _ => constEvalRollout)).1.map
          PerEpisode.max_reward
          = (((List.range (n_batches 5 2)).map
              (fun b => batchMaxRewards ((fun _ => constEvalRollout) b))).flatten).take 5
      ∧ (eval_policy_info 5 2 7 (fun _ => constEvalRollout)).1.map
          PerEpisode.success
          = (((List.range (n_batches 5 2)).map
              (fun b => batchSuccesses ((fun _ => constEvalRollout) b))).flatten).take 5
      ∧ (eval_policy_info 5 2 7 (fun _ => constEvalRollout)).2.1
          = (((eval_policy_info 5 2 7 (fun _ => constEvalRollout)).1.map
              PerEpisode.sum_reward).sum) / ((5 : Nat) : Rat)
      ∧ (eval_policy_info 5 2 7 (fun _ => constEvalRollout)).2.2.1
          = (((eval_policy_info 5 2 7 (fun _ => constEvalRollout)).1.map
              PerEpisode.max_reward).sum) / ((5 : Nat) : Rat)
      ∧ (eval_policy_info 5 2 7 (fun _ => constEvalRollout)).2.2.2
          = ((((eval_policy_info 5 2 7 (fun _ => constEvalRollout)).1.map
              PerEpisode.success).countP id : Nat) : Rat)
            / ((5 : Nat) : Rat) * 100) :=
  ⟨⟨by decide, by decide, fun b _ => ⟨rfl, rfl, rfl⟩⟩,
    eval_policy_batching_seeds 5 2 7 (fun _ => constEvalRollout)
      (by decide) (by decide) (fun b hb => ⟨rfl, rfl, rfl⟩)⟩
